import Mathlib

/-!
Shallow embedding of the wod-assistant constraint-and-substitution core
(`src/scaling/constraint-engine.ts`, `src/scaling/substitution.ts`,
`src/scaling/scaling-tiers.ts`, and the data model under `src/models/`).

Enumerated TS string types (equipment kinds, body regions, muscle groups,
modalities, tags, load types) are embedded as `String`, matching their
runtime representation as enum string values.  JS numbers carrying loads,
reps and percentages are embedded as `ℚ`; `Math.round` is `⌊x + 1/2⌋`,
which agrees with JS rounding on these magnitudes.  A JS `Set` used only
for membership is embedded as a `List` queried by `contains`.
The movement catalog is external to the engine (a read-only table), so
every function taking it is parametrised by `catalog : List Movement`.
-/

namespace Wod

/-- `DifficultyTier` enum from `src/models/movement.ts`. -/
inductive DifficultyTier where
  | beginner
  | intermediate
  | advanced
  | rx
  | rxPlus
deriving DecidableEq, Repr

/-- The string value of each `DifficultyTier` enum member. -/
def tierValue : DifficultyTier → String
  | .beginner => "beginner"
  | .intermediate => "intermediate"
  | .advanced => "advanced"
  | .rx => "rx"
  | .rxPlus => "rx_plus"

/-- `Movement` record from `src/models/movement.ts`. -/
structure Movement where
  id : String
  name : String
  equipment : List String
  primaryRegions : List String
  secondaryRegions : List String
  muscleGroups : List String
  modality : String
  difficulty : DifficultyTier
  tags : List String
  loadType : String
  defaultLoadMale : Option ℚ := none
  defaultLoadFemale : Option ℚ := none
  substitutions : List String
  description : Option String := none
deriving DecidableEq, Repr

/-- `MovementConstraint` record from `src/models/impediment.ts`. -/
structure MovementConstraint where
  avoidRegions : List String
  avoidTags : List String
  maxLoadPercent : Option ℚ := none
  allowHighImpact : Bool
  allowOverhead : Bool
  allowInversion : Bool
  allowProne : Bool
  allowKipping : Bool
  allowHeavyAxialLoad : Bool
  notes : Option String := none
deriving DecidableEq, Repr

/-- `Impediment` record from `src/models/impediment.ts`; the engine reads
only the derived `constraints`. -/
structure Impediment where
  id : String
  category : String
  severity : String
  affectedRegions : List String
  description : String
  startDate : String
  endDate : Option String := none
  trimester : Option Nat := none
  weeksPostpartum : Option ℚ := none
  constraints : MovementConstraint
deriving DecidableEq, Repr

/-- `MovementCheck` result record from `src/scaling/constraint-engine.ts`. -/
structure MovementCheck where
  allowed : Bool
  reasons : List String
  maxLoadPercent : Option ℚ := none
  warnings : List String
deriving DecidableEq, Repr

/-- `[...new Set(xs)]` in JS: deduplicate keeping the first occurrence of
each element, in order. -/
def jsSetDedup (xs : List String) : List String :=
  xs.foldl (fun acc x => if acc.contains x then acc else acc ++ [x]) []

/-- `getMinLoadPercent` from `src/scaling/constraint-engine.ts`:
`Math.min` over the defined caps, `undefined` when none are defined. -/
def getMinLoadPercent (constraints : List MovementConstraint) : Option ℚ :=
  match constraints.filterMap (·.maxLoadPercent) with
  | [] => none
  | c :: rest => some (rest.foldl min c)

/-- `mergeConstraints` from `src/scaling/constraint-engine.ts`. -/
def mergeConstraints (impediments : List Impediment) : Option MovementConstraint :=
  if impediments.isEmpty then none
  else
    let allConstraints := impediments.map (·.constraints)
    some
      { avoidRegions := jsSetDedup (allConstraints.flatMap (·.avoidRegions))
        avoidTags := jsSetDedup (allConstraints.flatMap (·.avoidTags))
        allowHighImpact := allConstraints.all (·.allowHighImpact)
        allowOverhead := allConstraints.all (·.allowOverhead)
        allowInversion := allConstraints.all (·.allowInversion)
        allowProne := allConstraints.all (·.allowProne)
        allowKipping := allConstraints.all (·.allowKipping)
        allowHeavyAxialLoad := allConstraints.all (·.allowHeavyAxialLoad)
        maxLoadPercent := getMinLoadPercent allConstraints
        notes := none }

/-- Equipment gate of `checkMovement`: one reason per required kind other
than the sentinel `"none"` that the inventory lacks, in order. -/
def equipmentReasons (movement : Movement) (equipment : List String) : List String :=
  (movement.equipment.filter
      (fun req => req != "none" && !(equipment.contains req))).map
    (fun req => "Missing equipment: " ++ req)

/-- Body-region gate of `checkMovement`: primary hits produce a blocking
reason, secondary hits a warning.  Returns `(reasons, warnings)`. -/
def regionGate (movement : Movement) (c : MovementConstraint) :
    List String × List String :=
  let hitRegions :=
    (movement.primaryRegions ++ movement.secondaryRegions).filter
      (fun r => c.avoidRegions.contains r)
  if hitRegions.isEmpty then ([], [])
  else
    let primaryHits :=
      movement.primaryRegions.filter (fun r => c.avoidRegions.contains r)
    let secondaryHits :=
      movement.secondaryRegions.filter (fun r => c.avoidRegions.contains r)
    ((if primaryHits.isEmpty then []
      else ["Stresses protected region(s): " ++ String.intercalate ", " primaryHits]),
     (if secondaryHits.isEmpty then []
      else ["Secondarily stresses protected region(s): " ++
              String.intercalate ", " secondaryHits ++ " -- use with caution"]))

/-- Tag gate of `checkMovement`: every avoided tag carried by the movement
produces a blocking reason, in `avoidTags` order. -/
def tagReasons (movement : Movement) (c : MovementConstraint) : List String :=
  (c.avoidTags.filter (fun t => movement.tags.contains t)).map
    (fun t => "Tagged as \"" ++ t ++ "\" which is restricted")

/-- The six named-property gates of `checkMovement`, in source order. -/
def propertyReasons (movement : Movement) (c : MovementConstraint) : List String :=
  (if !c.allowHighImpact && movement.tags.contains "high_impact"
     then ["High-impact movements restricted"] else []) ++
  (if !c.allowOverhead && movement.tags.contains "overhead"
     then ["Overhead movements restricted"] else []) ++
  (if !c.allowInversion && movement.tags.contains "inverted"
     then ["Inverted positions restricted"] else []) ++
  (if !c.allowProne && movement.tags.contains "prone"
     then ["Prone positions restricted"] else []) ++
  (if !c.allowKipping && movement.tags.contains "kipping"
     then ["Kipping movements restricted"] else []) ++
  (if !c.allowHeavyAxialLoad && movement.tags.contains "axial_load"
     then ["Heavy axial loading restricted"] else [])

/-- Load-cap gate of `checkMovement`: returns
`(maxLoadPercent, reasons, warnings)`. -/
def loadGate (movement : Movement) (c : MovementConstraint) :
    Option ℚ × List String × List String :=
  match c.maxLoadPercent with
  | none => (none, [], [])
  | some p =>
    if p = 0 ∧ movement.loadType = "weighted" then
      (some p, ["All weighted loading restricted"], [])
    else if p > 0 ∧ movement.loadType = "weighted" then
      (some p, [], ["Load capped at " ++ toString p ++ "% of normal"])
    else
      (some p, [], [])

/-- `checkMovement` from `src/scaling/constraint-engine.ts`. -/
def checkMovement (movement : Movement) (constraints : Option MovementConstraint)
    (equipment : List String) : MovementCheck :=
  let eqReasons := equipmentReasons movement equipment
  match constraints with
  | none =>
    { allowed := eqReasons.isEmpty
      reasons := eqReasons
      maxLoadPercent := none
      warnings := [] }
  | some c =>
    let (regReasons, regWarnings) := regionGate movement c
    let (mlp, ldReasons, ldWarnings) := loadGate movement c
    let reasons :=
      eqReasons ++ regReasons ++ tagReasons movement c ++
        propertyReasons movement c ++ ldReasons
    { allowed := reasons.isEmpty
      reasons := reasons
      maxLoadPercent := mlp
      warnings := regWarnings ++ ldWarnings }

/-- `filterAllowedMovements` from `src/scaling/constraint-engine.ts`. -/
def filterAllowedMovements (movements : List Movement)
    (constraints : Option MovementConstraint) (equipment : List String) :
    List Movement :=
  movements.filter (fun m => (checkMovement m constraints equipment).allowed)

/-- Modelled from the spec: the movement catalog is an external read-only
table offering lookup-by-identifier (`getMovement` in
`src/movements/library.ts`, which is outside the verified core); the
catalog is passed explicitly and looked up by unique id. -/
def getMovement (catalog : List Movement) (movementId : String) : Option Movement :=
  catalog.find? (fun m => m.id == movementId)

/-- `SubstitutionResult` record from `src/scaling/substitution.ts`. -/
structure SubstitutionResult where
  original : Movement
  replacement : Option Movement
  originalReasons : List String
  replacementWarnings : List String
  loadScale : ℚ
deriving DecidableEq, Repr

/-- The JS expression `check.maxLoadPercent ? check.maxLoadPercent / 100 : 1`
used in `findSubstitution`: `undefined` and the falsy number `0` both give
`1`; any other defined cap gives `cap / 100`. -/
def jsLoadScale (maxLoadPercent : Option ℚ) : ℚ :=
  match maxLoadPercent with
  | none => 1
  | some p => if p = 0 then 1 else p / 100

/-- The substitution-chain walk in `findSubstitution` (the `for` loop over
`movement.substitutions`): resolve each id in authored order, skip those
missing from the catalog, and return the first resolved candidate whose
check is allowed, together with that check. -/
def walkChain (catalog : List Movement) (constraints : Option MovementConstraint)
    (equipment : List String) : List String → Option (Movement × MovementCheck)
  | [] => none
  | subId :: rest =>
    match getMovement catalog subId with
    | none => walkChain catalog constraints equipment rest
    | some candidate =>
      let candidateCheck := checkMovement candidate constraints equipment
      if candidateCheck.allowed then some (candidate, candidateCheck)
      else walkChain catalog constraints equipment rest

/-- `DIFFICULTY_ORDER.indexOf` in `src/scaling/substitution.ts` and
`tierIndex` in `src/scaling/scaling-tiers.ts`: both index the same
five-element ascending tier list. -/
def tierIndex : DifficultyTier → ℤ
  | .beginner => 0
  | .intermediate => 1
  | .advanced => 2
  | .rx => 3
  | .rxPlus => 4

/-- Number of muscle groups of `candidate` shared with `original`
(`candidate.muscleGroups.filter((g) => originalGroups.has(g)).length`). -/
def sharedGroupCount (original candidate : Movement) : Nat :=
  (candidate.muscleGroups.filter
    (fun g => original.muscleGroups.contains g)).length

/-- A scored fallback candidate, as accumulated by `findBroadSubstitution`. -/
structure ScoredCandidate where
  movement : Movement
  score : ℤ
deriving DecidableEq, Repr

/-- The fallback score in `findBroadSubstitution`:
`sharedGroups * 10 + atOrBelowDifficulty * 5 + sameModality`. -/
def broadScore (original candidate : Movement) : ℤ :=
  (sharedGroupCount original candidate : ℤ) * 10 +
    (if tierIndex candidate.difficulty ≤ tierIndex original.difficulty then 1 else 0) * 5 +
    (if candidate.modality == original.modality then 1 else 0)

/-- The candidate-collection loop of `findBroadSubstitution`: catalog
movements not already tried (the original's id and its substitution-chain
ids), sharing at least one muscle group with the original, and passing
`checkMovement`, each paired with its score, in catalog order. -/
def broadCandidates (catalog : List Movement) (original : Movement)
    (constraints : Option MovementConstraint) (equipment : List String) :
    List ScoredCandidate :=
  let alreadyTried := original.id :: original.substitutions
  (catalog.filter (fun candidate =>
      !(alreadyTried.contains candidate.id) &&
      !(sharedGroupCount original candidate == 0) &&
      (checkMovement candidate constraints equipment).allowed)).map
    (fun candidate =>
      { movement := candidate, score := broadScore original candidate })

/-- `candidates.sort((a, b) => b.score - a.score)` followed by
`candidates[0]`: JS `Array.prototype.sort` is stable, so the head of the
descending sort is the earliest candidate attaining the maximal score.
Embedded directly as that first-maximum selection. -/
def chooseBest : List ScoredCandidate → Option ScoredCandidate
  | [] => none
  | candidate :: rest =>
    match chooseBest rest with
    | none => some candidate
    | some best => if best.score > candidate.score then some best else some candidate

/-- `findBroadSubstitution` from `src/scaling/substitution.ts`. -/
def findBroadSubstitution (catalog : List Movement) (original : Movement)
    (constraints : Option MovementConstraint) (equipment : List String) :
    Option Movement :=
  (chooseBest (broadCandidates catalog original constraints equipment)).map
    (·.movement)

/-- `findSubstitution` from `src/scaling/substitution.ts`. -/
def findSubstitution (catalog : List Movement) (movement : Movement)
    (constraints : Option MovementConstraint) (equipment : List String) :
    SubstitutionResult :=
  let originalCheck := checkMovement movement constraints equipment
  if originalCheck.allowed then
    { original := movement
      replacement := some movement
      originalReasons := []
      replacementWarnings := originalCheck.warnings
      loadScale := jsLoadScale originalCheck.maxLoadPercent }
  else
    match walkChain catalog constraints equipment movement.substitutions with
    | some (candidate, candidateCheck) =>
      { original := movement
        replacement := some candidate
        originalReasons := originalCheck.reasons
        replacementWarnings := candidateCheck.warnings
        loadScale := jsLoadScale candidateCheck.maxLoadPercent }
    | none =>
      match findBroadSubstitution catalog movement constraints equipment with
      | some broadMatch =>
        let broadCheck := checkMovement broadMatch constraints equipment
        { original := movement
          replacement := some broadMatch
          originalReasons := originalCheck.reasons
          replacementWarnings := broadCheck.warnings ++
            ["Substituted via muscle-group fallback (not a direct substitution)"]
          loadScale := jsLoadScale broadCheck.maxLoadPercent }
      | none =>
        { original := movement
          replacement := none
          originalReasons := originalCheck.reasons
          replacementWarnings := []
          loadScale := 0 }

/-- `scaleWorkoutMovements` from `src/scaling/substitution.ts`. -/
def scaleWorkoutMovements (catalog : List Movement) (movements : List Movement)
    (constraints : Option MovementConstraint) (equipment : List String) :
    List SubstitutionResult :=
  movements.map (fun m => findSubstitution catalog m constraints equipment)

/-- `MovementPrescription` record from `src/models/workout.ts`. -/
structure MovementPrescription where
  movementId : String
  movement : Option Movement := none
  reps : Option ℚ := none
  load : Option ℚ := none
  distance : Option ℚ := none
  duration : Option ℚ := none
  calories : Option ℚ := none
  notes : Option String := none
deriving DecidableEq, Repr

/-- `Workout` record from `src/models/workout.ts` (`format` and
`scoreType` are enum string values). -/
structure Workout where
  id : String
  name : String
  format : String
  movements : List MovementPrescription
  timeCap : Option ℚ := none
  rounds : Option ℚ := none
  workInterval : Option ℚ := none
  restInterval : Option ℚ := none
  emomMinutes : Option ℚ := none
  scoreType : String
  description : Option String := none
  isBenchmark : Bool
  estimatedDuration : Option ℚ := none
deriving DecidableEq, Repr

/-- `ScalingNote` record from `src/scaling/scaling-tiers.ts`. -/
structure ScalingNote where
  originalId : String
  originalName : String
  changes : List String
  tieredMovementId : String
  tieredMovementName : String
deriving DecidableEq, Repr

/-- `ScaledWorkout` record from `src/scaling/scaling-tiers.ts`. -/
structure ScaledWorkout where
  tier : DifficultyTier
  workout : Workout
  scalingNotes : List ScalingNote
deriving DecidableEq, Repr

/-- `TIER_ORDER` from `src/scaling/scaling-tiers.ts`. -/
def TIER_ORDER : List DifficultyTier :=
  [.beginner, .intermediate, .advanced, .rx, .rxPlus]

/-- `TIER_LOAD_SCALE` from `src/scaling/scaling-tiers.ts`
(0.45, 0.65, 0.85, 1.0, 1.1). -/
def TIER_LOAD_SCALE : DifficultyTier → ℚ
  | .beginner => 45 / 100
  | .intermediate => 65 / 100
  | .advanced => 85 / 100
  | .rx => 1
  | .rxPlus => 110 / 100

/-- `TIER_REP_SCALE` from `src/scaling/scaling-tiers.ts`
(0.6, 0.8, 1.0, 1.0, 1.2). -/
def TIER_REP_SCALE : DifficultyTier → ℚ
  | .beginner => 60 / 100
  | .intermediate => 80 / 100
  | .advanced => 1
  | .rx => 1
  | .rxPlus => 120 / 100

/-- `tierLabel` from `src/scaling/scaling-tiers.ts`. -/
def tierLabel : DifficultyTier → String
  | .beginner => "Beginner"
  | .intermediate => "Intermediate"
  | .advanced => "Advanced"
  | .rx => "Rx"
  | .rxPlus => "Rx+"

/-- JS `Math.round`: round half toward positive infinity,
`Math.round x = ⌊x + 1/2⌋`. -/
def jsRound (x : ℚ) : ℤ := ⌊x + 1 / 2⌋

/-- The substitution-chain walk of `findTieredMovement`: first resolved
candidate that passes the equipment-only check and whose difficulty
index is at most `targetIdx`. -/
def walkChainTier (catalog : List Movement) (targetIdx : ℤ)
    (equipment : List String) : List String → Option Movement
  | [] => none
  | subId :: rest =>
    match getMovement catalog subId with
    | none => walkChainTier catalog targetIdx equipment rest
    | some candidate =>
      if !(checkMovement candidate none equipment).allowed then
        walkChainTier catalog targetIdx equipment rest
      else if tierIndex candidate.difficulty ≤ targetIdx then some candidate
      else walkChainTier catalog targetIdx equipment rest

/-- The candidate-collection loop of `findTieredMovement`'s broad search:
catalog movements other than the original that pass the equipment-only
check, are at or below the target tier, and share a muscle group, scored
`sharedGroups * 10 + sameModality`, in catalog order. -/
def tierCandidates (catalog : List Movement) (movement : Movement)
    (targetIdx : ℤ) (equipment : List String) : List ScoredCandidate :=
  (catalog.filter (fun candidate =>
      !(candidate.id == movement.id) &&
      (checkMovement candidate none equipment).allowed &&
      !(tierIndex candidate.difficulty > targetIdx) &&
      !(sharedGroupCount movement candidate == 0))).map
    (fun candidate =>
      { movement := candidate
        score := (sharedGroupCount movement candidate : ℤ) * 10 +
          (if candidate.modality == movement.modality then 1 else 0) })

/-- `findTieredMovement` from `src/scaling/scaling-tiers.ts`. -/
def findTieredMovement (catalog : List Movement) (movement : Movement)
    (targetTier : DifficultyTier) (equipment : List String) : Movement :=
  let targetIdx := tierIndex targetTier
  if tierIndex movement.difficulty ≤ targetIdx then movement
  else
    match walkChainTier catalog targetIdx equipment movement.substitutions with
    | some candidate => candidate
    | none =>
      match chooseBest (tierCandidates catalog movement targetIdx equipment) with
      | some best => best.movement
      | none => movement

/-- `scalePrescription` from `src/scaling/scaling-tiers.ts`. -/
def scalePrescription (catalog : List Movement)
    (prescription : MovementPrescription) (targetTier : DifficultyTier)
    (equipment : List String) : MovementPrescription × ScalingNote :=
  match prescription.movement.orElse
      (fun _ => getMovement catalog prescription.movementId) with
  | none =>
    (prescription,
     { originalId := prescription.movementId
       originalName := prescription.movementId
       changes := []
       tieredMovementId := prescription.movementId
       tieredMovementName := prescription.movementId })
  | some original =>
    let tiered := findTieredMovement catalog original targetTier equipment
    let substitutionChanges :=
      if !(tiered.id == original.id) then
        ["substituted: " ++ original.name ++ " → " ++ tiered.name]
      else ["kept"]
    let loadScale := TIER_LOAD_SCALE targetTier
    let scaledLoad : Option ℚ :=
      prescription.load.map (fun l => ((jsRound (l * loadScale) : ℤ) : ℚ))
    let loadChanges :=
      match prescription.load, scaledLoad with
      | some l, some sl =>
        if !(loadScale == 1) then
          ["load: " ++ toString l ++ "lbs → " ++ toString sl ++ "lbs"]
        else []
      | _, _ => []
    let repScale := TIER_REP_SCALE targetTier
    let scaledReps : Option ℚ :=
      match prescription.reps with
      | none => none
      | some r =>
        if r > 0 then some ((max 1 (jsRound (r * repScale)) : ℤ) : ℚ)
        else some r
    let repChanges :=
      match prescription.reps, scaledReps with
      | some r, some sr =>
        if r > 0 && !(repScale == 1) then
          ["reps: " ++ toString r ++ " → " ++ toString sr]
        else []
      | _, _ => []
    ({ movementId := tiered.id
       movement := some tiered
       reps := scaledReps
       load := scaledLoad
       distance := prescription.distance
       duration := prescription.duration
       calories := prescription.calories
       notes := prescription.notes },
     { originalId := original.id
       originalName := original.name
       changes := substitutionChanges ++ loadChanges ++ repChanges
       tieredMovementId := tiered.id
       tieredMovementName := tiered.name })

/-- `scaleWorkoutToTier` from `src/scaling/scaling-tiers.ts`. -/
def scaleWorkoutToTier (catalog : List Movement) (workout : Workout)
    (targetTier : DifficultyTier) (equipment : List String) : ScaledWorkout :=
  let results := workout.movements.map
    (fun p => scalePrescription catalog p targetTier equipment)
  { tier := targetTier
    workout :=
      { workout with
        id := workout.id ++ "_" ++ tierValue targetTier
        name := workout.name ++ " (" ++ tierLabel targetTier ++ ")"
        movements := results.map Prod.fst }
    scalingNotes := results.map Prod.snd }

/-- `generateAllScalingTiers` from `src/scaling/scaling-tiers.ts`. -/
def generateAllScalingTiers (catalog : List Movement) (workout : Workout)
    (equipment : List String) : List ScaledWorkout :=
  TIER_ORDER.map (fun tier => scaleWorkoutToTier catalog workout tier equipment)

/-! ### Concrete instances used for witnesses and counterexamples -/

/-- A fully permissive constraint: nothing avoided, everything allowed,
no load cap. -/
def openConstraint : MovementConstraint :=
  { avoidRegions := []
    avoidTags := []
    maxLoadPercent := none
    allowHighImpact := true
    allowOverhead := true
    allowInversion := true
    allowProne := true
    allowKipping := true
    allowHeavyAxialLoad := true }

/-- The permissive constraint with a load cap of exactly 0. -/
def capZeroConstraint : MovementConstraint :=
  { openConstraint with maxLoadPercent := some 0 }

/-- A bodyweight air squat requiring no equipment. -/
def airSquatEx : Movement :=
  { id := "air_squat"
    name := "Air Squat"
    equipment := ["none"]
    primaryRegions := ["quads", "glutes"]
    secondaryRegions := ["hamstrings"]
    muscleGroups := ["squat"]
    modality := "gymnastics"
    difficulty := .beginner
    tags := []
    loadType := "bodyweight"
    substitutions := [] }

/-- A barbell back squat with an authored substitution chain. -/
def backSquatEx : Movement :=
  { id := "back_squat"
    name := "Back Squat"
    equipment := ["barbell", "squat_rack"]
    primaryRegions := ["quads", "glutes"]
    secondaryRegions := ["lower_back", "core"]
    muscleGroups := ["squat"]
    modality := "weightlifting"
    difficulty := .intermediate
    tags := ["axial_load"]
    loadType := "weighted"
    substitutions := ["air_squat"] }

/-- A beginner-tier weighted dumbbell squat (kept unchanged at every
target tier by `findTieredMovement`). -/
def dumbbellSquatEx : Movement :=
  { id := "dumbbell_squat"
    name := "Dumbbell Squat"
    equipment := ["dumbbell"]
    primaryRegions := ["quads", "glutes"]
    secondaryRegions := []
    muscleGroups := ["squat"]
    modality := "weightlifting"
    difficulty := .beginner
    tags := []
    loadType := "weighted"
    substitutions := [] }

/-- A movement whose only avoid-region overlap can be secondary
(`hamstrings` secondary, `quads` primary). -/
def secondaryHitConstraint : MovementConstraint :=
  { openConstraint with avoidRegions := ["hamstrings"] }

/-- An impediment carrying `openConstraint` with a cap of 70. -/
def cap70Impediment : Impediment :=
  { id := "imp_cap70"
    category := "pregnancy"
    severity := "moderate"
    affectedRegions := []
    description := "cap 70"
    startDate := "2025-01-01"
    constraints := { openConstraint with maxLoadPercent := some 70 } }

/-- An impediment avoiding the shoulders with a cap of 80 and kipping
disallowed. -/
def shoulderImpediment : Impediment :=
  { id := "imp_shoulder"
    category := "acute_injury"
    severity := "mild"
    affectedRegions := ["shoulders"]
    description := "shoulder"
    startDate := "2025-02-01"
    constraints :=
      { openConstraint with
        avoidRegions := ["shoulders"]
        allowKipping := false
        maxLoadPercent := some 80 } }

/-- A 225-lb, 10-rep back squat prescription resolved via the catalog. -/
def squatPrescription : MovementPrescription :=
  { movementId := "back_squat"
    reps := some 10
    load := some 225 }

/-- A prescription of `dumbbellSquatEx` at an adjustable load. -/
def dumbbellPrescription (L : ℚ) : MovementPrescription :=
  { movementId := "dumbbell_squat"
    movement := some dumbbellSquatEx
    reps := some 10
    load := some L }

/-- A one-movement workout over `dumbbellSquatEx`, with a sign-adjustable
load (`L`) prescribed together with reps. -/
def squatWorkout (L : ℚ) : Workout :=
  { id := "wod1"
    name := "Squats"
    format := "for_time"
    movements := [dumbbellPrescription L]
    timeCap := some 12
    scoreType := "time"
    isBenchmark := false }

/-! ### Helper lemmas -/

lemma jsSetDedup_step_mem (acc : List String) (y x : String) :
    x ∈ (if acc.contains y then acc else acc ++ [y]) ↔ x ∈ acc ∨ x = y := by
  by_cases h : acc.contains y
  · simp only [h, if_true]
    constructor
    · exact Or.inl
    · rintro (hx | rfl)
      · exact hx
      · exact List.elem_iff.mp h
  · simp only [Bool.not_eq_true] at h
    simp only [h, Bool.false_eq_true, if_false, List.mem_append, List.mem_singleton]

lemma jsSetDedup_foldl_mem (xs : List String) (acc : List String) (x : String) :
    x ∈ xs.foldl (fun acc x => if acc.contains x then acc else acc ++ [x]) acc ↔
      x ∈ acc ∨ x ∈ xs := by
  induction xs generalizing acc with
  | nil => simp
  | cons y ys ih =>
    simp only [List.foldl_cons, ih, jsSetDedup_step_mem, List.mem_cons]
    tauto

/-- Membership in `jsSetDedup` is membership in the input list. -/
lemma jsSetDedup_mem (xs : List String) (x : String) :
    x ∈ jsSetDedup xs ↔ x ∈ xs := by
  rw [jsSetDedup, jsSetDedup_foldl_mem]
  simp

/-- `l.foldl min a` is the minimum of `a :: l`. -/
lemma foldl_min_spec (l : List ℚ) (a : ℚ) :
    (l.foldl min a = a ∨ l.foldl min a ∈ l) ∧
      l.foldl min a ≤ a ∧ ∀ p ∈ l, l.foldl min a ≤ p := by
  induction l generalizing a with
  | nil => simp
  | cons b bs ih =>
    obtain ⟨hmem, hle, hall⟩ := ih (min a b)
    refine ⟨?_, ?_, ?_⟩
    · rcases hmem with h | h
      · rcases min_choice a b with hc | hc
        · exact Or.inl (by rw [List.foldl_cons, h, hc])
        · exact Or.inr (by rw [List.foldl_cons, h, hc]; exact List.mem_cons_self b bs)
      · exact Or.inr (List.mem_cons_of_mem b h)
    · exact le_trans hle (min_le_left a b)
    · intro p hp
      rcases List.mem_cons.mp hp with rfl | hp
      · exact le_trans hle (min_le_right a p)
      · exact hall p hp

lemma chooseBest_none_iff {cs : List ScoredCandidate} :
    chooseBest cs = none ↔ cs = [] := by
  cases cs with
  | nil => simp [chooseBest]
  | cons c rest =>
    simp only [chooseBest]
    cases h : chooseBest rest with
    | none => simp
    | some best =>
      by_cases hgt : best.score > c.score <;> simp [hgt]

lemma chooseBest_max {cs : List ScoredCandidate} {b : ScoredCandidate}
    (h : chooseBest cs = some b) : ∀ x ∈ cs, x.score ≤ b.score := by
  induction cs generalizing b with
  | nil => simp [chooseBest] at h
  | cons c rest ih =>
    intro x hx
    rcases List.mem_cons.mp hx with rfl | hx
    · cases hrest : chooseBest rest with
      | none =>
        simp [chooseBest, hrest] at h
        simp [h]
      | some best =>
        by_cases hgt : best.score > x.score
        · simp [chooseBest, hrest, hgt] at h
          rw [← h]
          exact le_of_lt hgt
        · simp [chooseBest, hrest, hgt] at h
          simp [h]
    · cases hrest : chooseBest rest with
      | none =>
        have : rest = [] := chooseBest_none_iff.mp hrest
        subst this
        simp at hx
      | some best =>
        have hxb := ih hrest x hx
        by_cases hgt : best.score > c.score
        · simp [chooseBest, hrest, hgt] at h
          rw [← h]
          exact hxb
        · simp [chooseBest, hrest, hgt] at h
          rw [← h]
          exact le_trans hxb (not_lt.mp hgt)

/-- `chooseBest` over a filtered-and-scored list selects the earliest
underlying element attaining the maximal score: the decomposition witness
for the deterministic tie-break. -/
lemma chooseBest_filter_map_spec {P : Movement → Bool}
    {f : Movement → ScoredCandidate} {l : List Movement} {b : ScoredCandidate}
    (h : chooseBest ((l.filter P).map f) = some b) :
    ∃ pre m post, l = pre ++ m :: post ∧ P m = true ∧ f m = b ∧
      ∀ x ∈ pre, P x = true → (f x).score < b.score := by
  induction l generalizing b with
  | nil => simp [chooseBest] at h
  | cons y ys ih =>
    by_cases hP : P y
    · rw [List.filter_cons_of_pos hP, List.map_cons] at h
      cases hrest : chooseBest ((ys.filter P).map f) with
      | none =>
        simp only [chooseBest, hrest] at h
        refine ⟨[], y, ys, rfl, hP, Option.some.inj h, by simp⟩
      | some best =>
        by_cases hgt : best.score > (f y).score
        · simp only [chooseBest, hrest] at h
          rw [if_pos hgt] at h
          obtain rfl : best = b := Option.some.inj h
          obtain ⟨pre, m, post, hdec, hPm, hfm, hpre⟩ := ih hrest
          refine ⟨y :: pre, m, post, by rw [hdec, List.cons_append], hPm, hfm, ?_⟩
          intro x hx hPx
          rcases List.mem_cons.mp hx with rfl | hx
          · exact hgt
          · exact hpre x hx hPx
        · simp only [chooseBest, hrest] at h
          rw [if_neg hgt] at h
          refine ⟨[], y, ys, rfl, hP, Option.some.inj h, by simp⟩
    · rw [List.filter_cons_of_neg (by simpa using hP)] at h
      obtain ⟨pre, m, post, hdec, hPm, hfm, hpre⟩ := ih h
      refine ⟨y :: pre, m, post, by rw [hdec, List.cons_append], hPm, hfm, ?_⟩
      intro x hx hPx
      rcases List.mem_cons.mp hx with rfl | hx
      · exact absurd hPx hP
      · exact hpre x hx hPx

/-- A substitution chain on which no resolved candidate passes the check
walks to `none`. -/
lemma walkChain_eq_none {catalog : List Movement}
    {constraints : Option MovementConstraint} {inv : List String}
    {chain : List String}
    (h : ∀ subId ∈ chain, ∀ cand, getMovement catalog subId = some cand →
      (checkMovement cand constraints inv).allowed = false) :
    walkChain catalog constraints inv chain = none := by
  induction chain with
  | nil => rfl
  | cons s rest ih =>
    have hrest := ih (fun subId hs => h subId (List.mem_cons_of_mem _ hs))
    cases hg : getMovement catalog s with
    | none => rw [walkChain, hg]; exact hrest
    | some cand =>
      have hc := h s (List.mem_cons_self _ _) cand hg
      rw [walkChain, hg]
      simp only [hc, Bool.false_eq_true, if_false]
      exact hrest

/-- `checkMovement` under a present constraint, with its gates exposed. -/
lemma checkMovement_some_eq (m : Movement) (c : MovementConstraint)
    (inv : List String) :
    checkMovement m (some c) inv =
      { allowed := (equipmentReasons m inv ++ (regionGate m c).1 ++
          tagReasons m c ++ propertyReasons m c ++ (loadGate m c).2.1).isEmpty
        reasons := equipmentReasons m inv ++ (regionGate m c).1 ++
          tagReasons m c ++ propertyReasons m c ++ (loadGate m c).2.1
        maxLoadPercent := (loadGate m c).1
        warnings := (regionGate m c).2 ++ (loadGate m c).2.2 } := by
  rcases hr : regionGate m c with ⟨rr, rwarn⟩
  rcases hl : loadGate m c with ⟨mlp, lr, lw⟩
  simp only [checkMovement, hr, hl]

/-- `checkMovement` with an absent constraint. -/
lemma checkMovement_none_eq (m : Movement) (inv : List String) :
    checkMovement m none inv =
      { allowed := (equipmentReasons m inv).isEmpty
        reasons := equipmentReasons m inv
        maxLoadPercent := none
        warnings := [] } := rfl

/-- `loadGate` with a defined cap, unfolded. -/
lemma loadGate_some (m : Movement) (c : MovementConstraint) {p : ℚ}
    (h : c.maxLoadPercent = some p) :
    loadGate m c =
      if p = 0 ∧ m.loadType = "weighted" then
        (some p, ["All weighted loading restricted"], [])
      else if p > 0 ∧ m.loadType = "weighted" then
        (some p, [], ["Load capped at " ++ toString p ++ "% of normal"])
      else (some p, [], []) := by
  rw [loadGate, h]

lemma isEmpty_append_eq (l l' : List String) :
    (l ++ l').isEmpty = (l.isEmpty && l'.isEmpty) := by
  cases l <;> rfl

lemma all_map_eq {α β : Type} (l : List α) (f : α → β) (p : β → Bool) :
    (l.map f).all p = l.all (fun a => p (f a)) := by
  induction l with
  | nil => rfl
  | cons x xs ih => simp [ih]

lemma isEmpty_false_of_ne_nil {l : List String} (h : l ≠ []) :
    l.isEmpty = false := by
  cases l with
  | nil => exact absurd rfl h
  | cons x xs => rfl

/-- `regionGate` with the redundant outer emptiness test eliminated. -/
lemma regionGate_eq (m : Movement) (c : MovementConstraint) :
    regionGate m c =
      ((if (m.primaryRegions.filter (fun r => c.avoidRegions.contains r)).isEmpty
          then []
          else ["Stresses protected region(s): " ++ String.intercalate ", "
                  (m.primaryRegions.filter (fun r => c.avoidRegions.contains r))]),
       (if (m.secondaryRegions.filter (fun r => c.avoidRegions.contains r)).isEmpty
          then []
          else ["Secondarily stresses protected region(s): " ++
                  String.intercalate ", "
                    (m.secondaryRegions.filter (fun r => c.avoidRegions.contains r)) ++
                  " -- use with caution"])) := by
  rw [regionGate, List.filter_append, isEmpty_append_eq]
  by_cases hp : (m.primaryRegions.filter (fun r => c.avoidRegions.contains r)).isEmpty
  · by_cases hs : (m.secondaryRegions.filter (fun r => c.avoidRegions.contains r)).isEmpty
    · simp [hp, hs]
    · simp [hp, hs]
  · simp [hp]

/-! ### Claim theorems -/

/-- C10: for every workout, target tier, and inventory, `scaleWorkoutToTier`
changes only the workout's id (by suffixing the tier value), its name (by
appending the parenthesized tier label), and its movements list; every
other field of the input workout appears unchanged in the output. -/
theorem scaleWorkoutToTier_frame (catalog : List Movement) (w : Workout)
    (t : DifficultyTier) (inv : List String) :
    (scaleWorkoutToTier catalog w t inv).workout.id =
        w.id ++ "_" ++ tierValue t ∧
    (scaleWorkoutToTier catalog w t inv).workout.name =
        w.name ++ " (" ++ tierLabel t ++ ")" ∧
    (scaleWorkoutToTier catalog w t inv).workout.format = w.format ∧
    (scaleWorkoutToTier catalog w t inv).workout.timeCap = w.timeCap ∧
    (scaleWorkoutToTier catalog w t inv).workout.rounds = w.rounds ∧
    (scaleWorkoutToTier catalog w t inv).workout.workInterval = w.workInterval ∧
    (scaleWorkoutToTier catalog w t inv).workout.restInterval = w.restInterval ∧
    (scaleWorkoutToTier catalog w t inv).workout.emomMinutes = w.emomMinutes ∧
    (scaleWorkoutToTier catalog w t inv).workout.scoreType = w.scoreType ∧
    (scaleWorkoutToTier catalog w t inv).workout.description = w.description ∧
    (scaleWorkoutToTier catalog w t inv).workout.isBenchmark = w.isBenchmark ∧
    (scaleWorkoutToTier catalog w t inv).workout.estimatedDuration =
        w.estimatedDuration :=
  ⟨rfl, rfl, rfl, rfl, rfl, rfl, rfl, rfl, rfl, rfl, rfl, rfl⟩

/-- C4: every required equipment kind other than `"none"` missing from the
inventory yields a blocking reason naming that kind (under any constraint),
and with an absent constraint `checkMovement` is allowed exactly when no
required kind other than `"none"` is missing. -/
theorem checkMovement_equipment_gate (m : Movement)
    (constraints : Option MovementConstraint) (inv : List String) :
    (∀ req ∈ m.equipment, req ≠ "none" → req ∉ inv →
      ("Missing equipment: " ++ req) ∈ (checkMovement m constraints inv).reasons ∧
        (checkMovement m constraints inv).allowed = false) ∧
    ((checkMovement m none inv).allowed = true ↔
      ∀ req ∈ m.equipment, req ≠ "none" → req ∈ inv) := by
  constructor
  · intro req hreq hne hnotin
    have hpred : (req != "none" && !(inv.contains req)) = true := by
      simp only [Bool.and_eq_true, bne_iff_ne, ne_eq, Bool.not_eq_true']
      exact ⟨hne, by simpa [List.elem_iff] using hnotin⟩
    have hmem : ("Missing equipment: " ++ req) ∈ equipmentReasons m inv :=
      List.mem_map.mpr ⟨req, List.mem_filter.mpr ⟨hreq, hpred⟩, rfl⟩
    have hne' : equipmentReasons m inv ≠ [] := List.ne_nil_of_mem hmem
    cases constraints with
    | none =>
      rw [checkMovement_none_eq]
      exact ⟨hmem, by simpa [List.isEmpty_iff] using hne'⟩
    | some c =>
      rw [checkMovement_some_eq]
      refine ⟨List.mem_append_left _ (List.mem_append_left _
        (List.mem_append_left _ (List.mem_append_left _ hmem))), ?_⟩
      cases hA : equipmentReasons m inv with
      | nil => exact absurd hA hne'
      | cons x xs => simp [hA]
  · rw [checkMovement_none_eq]
    simp only [List.isEmpty_iff, equipmentReasons, List.map_eq_nil_iff,
      List.filter_eq_nil_iff, Bool.and_eq_true, bne_iff_ne, ne_eq,
      Bool.not_eq_true, not_and]
    constructor
    · intro h req hreq hne
      have := h req hreq hne
      simpa [List.elem_iff] using this
    · intro h req hreq hne
      simpa [List.elem_iff] using h req hreq hne

/-- C9: with a present constraint defining a cap, `checkMovement` returns
that cap exactly in `maxLoadPercent` (for every load type and whether or
not the movement is allowed); for non-weighted movements the cap —
including a cap of exactly 0 — contributes neither a blocking reason nor
a warning. -/
theorem checkMovement_cap_passthrough (m : Movement) (c : MovementConstraint)
    (inv : List String) (p : ℚ) (h : c.maxLoadPercent = some p) :
    (checkMovement m (some c) inv).maxLoadPercent = some p ∧
    (m.loadType ≠ "weighted" →
      (checkMovement m (some c) inv).reasons =
        equipmentReasons m inv ++ (regionGate m c).1 ++ tagReasons m c ++
          propertyReasons m c ∧
      (checkMovement m (some c) inv).warnings = (regionGate m c).2) := by
  rw [checkMovement_some_eq]
  constructor
  · rw [loadGate_some m c h]
    split_ifs <;> rfl
  · intro hw
    have hl : loadGate m c = (some p, [], []) := by
      rw [loadGate_some m c h, if_neg (fun hcon => hw hcon.2),
        if_neg (fun hcon => hw hcon.2)]
    rw [hl]
    exact ⟨by simp, by simp⟩

/-- C4 witness: a barbell movement against an empty inventory is blocked
with a reason naming the missing kind. -/
theorem checkMovement_equipment_gate_witness :
    ("Missing equipment: " ++ "barbell") ∈
      (checkMovement backSquatEx none []).reasons ∧
    (checkMovement backSquatEx none []).allowed = false :=
  (checkMovement_equipment_gate backSquatEx none []).1 "barbell"
    (by decide) (by decide) (by decide)

/-- C5: a primary-region hit on the avoid list blocks the movement; an
overlap confined to secondary regions contributes only a non-blocking
warning, leaving `allowed` determined by the other gates; and in all
cases `allowed` is true exactly when the reasons list is empty, so
warnings never influence `allowed`. -/
theorem checkMovement_region_gate (m : Movement) (c : MovementConstraint)
    (inv : List String) :
    ((∃ r ∈ m.primaryRegions, r ∈ c.avoidRegions) →
      (checkMovement m (some c) inv).allowed = false) ∧
    ((∀ r ∈ m.primaryRegions, r ∉ c.avoidRegions) →
      (∃ r ∈ m.secondaryRegions, r ∈ c.avoidRegions) →
      (regionGate m c).1 = [] ∧
      (regionGate m c).2 ≠ [] ∧
      (checkMovement m (some c) inv).warnings =
        (regionGate m c).2 ++ (loadGate m c).2.2 ∧
      ((checkMovement m (some c) inv).allowed = true ↔
        (equipmentReasons m inv = [] ∧ tagReasons m c = [] ∧
          propertyReasons m c = [] ∧ (loadGate m c).2.1 = []))) ∧
    ((checkMovement m (some c) inv).allowed = true ↔
      (checkMovement m (some c) inv).reasons = []) := by
  refine ⟨?_, ?_, ?_⟩
  · rintro ⟨r, hr, hravoid⟩
    have hmem : r ∈ m.primaryRegions.filter (fun r => c.avoidRegions.contains r) :=
      List.mem_filter.mpr ⟨hr, List.elem_iff.mpr hravoid⟩
    have hph := isEmpty_false_of_ne_nil (List.ne_nil_of_mem hmem)
    have hrg : (regionGate m c).1 =
        ["Stresses protected region(s): " ++ String.intercalate ", "
          (m.primaryRegions.filter (fun r => c.avoidRegions.contains r))] := by
      rw [regionGate_eq]
      simp only [hph, Bool.false_eq_true, if_false]
    rw [checkMovement_some_eq]
    refine isEmpty_false_of_ne_nil (fun hcon => ?_)
    rw [List.append_eq_nil, List.append_eq_nil, List.append_eq_nil,
      List.append_eq_nil] at hcon
    rw [hrg] at hcon
    exact List.cons_ne_nil _ _ hcon.1.1.1.2
  · intro hnp hsec
    obtain ⟨r, hr, hravoid⟩ := hsec
    have hph : m.primaryRegions.filter (fun r => c.avoidRegions.contains r) = [] :=
      List.filter_eq_nil_iff.mpr
        (fun a ha hcon => hnp a ha (List.elem_iff.mp hcon))
    have hsmem : r ∈ m.secondaryRegions.filter (fun r => c.avoidRegions.contains r) :=
      List.mem_filter.mpr ⟨hr, List.elem_iff.mpr hravoid⟩
    have hsh := isEmpty_false_of_ne_nil (List.ne_nil_of_mem hsmem)
    have hrg1 : (regionGate m c).1 = [] := by
      rw [regionGate_eq]
      simp only [hph, List.isEmpty_nil, if_true]
    have hrg2 : (regionGate m c).2 ≠ [] := by
      rw [regionGate_eq]
      simp only [hsh, Bool.false_eq_true, if_false]
      exact List.cons_ne_nil _ _
    refine ⟨hrg1, hrg2, by rw [checkMovement_some_eq], ?_⟩
    rw [checkMovement_some_eq]
    simp only [hrg1, List.append_nil, List.isEmpty_iff, List.append_eq_nil]
    tauto
  · rw [checkMovement_some_eq]
    exact List.isEmpty_iff

/-- C5 witness: a movement whose only overlap with the avoid list is a
secondary region keeps `allowed` governed by the other gates and records
a warning. -/
theorem checkMovement_region_gate_witness :
    (regionGate airSquatEx secondaryHitConstraint).1 = [] ∧
    (regionGate airSquatEx secondaryHitConstraint).2 ≠ [] ∧
    (checkMovement airSquatEx (some secondaryHitConstraint) []).warnings =
      (regionGate airSquatEx secondaryHitConstraint).2 ++
        (loadGate airSquatEx secondaryHitConstraint).2.2 ∧
    ((checkMovement airSquatEx (some secondaryHitConstraint) []).allowed = true ↔
      (equipmentReasons airSquatEx [] = [] ∧
        tagReasons airSquatEx secondaryHitConstraint = [] ∧
        propertyReasons airSquatEx secondaryHitConstraint = [] ∧
        (loadGate airSquatEx secondaryHitConstraint).2.1 = [])) :=
  (checkMovement_region_gate airSquatEx secondaryHitConstraint []).2.1
    (by decide) (by decide)

/-- C3: merging no limitation records yields an absent constraint;
merging a non-empty list ANDs every boolean permission, unions the
avoid-regions and avoid-tags, and takes the minimum of the defined load
caps (absent when none is defined). -/
theorem mergeConstraints_spec (imps : List Impediment) :
    (imps = [] → mergeConstraints imps = none) ∧
    (imps ≠ [] → ∃ mc, mergeConstraints imps = some mc ∧
      mc.allowHighImpact = imps.all (fun i => i.constraints.allowHighImpact) ∧
      mc.allowOverhead = imps.all (fun i => i.constraints.allowOverhead) ∧
      mc.allowInversion = imps.all (fun i => i.constraints.allowInversion) ∧
      mc.allowProne = imps.all (fun i => i.constraints.allowProne) ∧
      mc.allowKipping = imps.all (fun i => i.constraints.allowKipping) ∧
      mc.allowHeavyAxialLoad =
        imps.all (fun i => i.constraints.allowHeavyAxialLoad) ∧
      (∀ r, r ∈ mc.avoidRegions ↔ ∃ i ∈ imps, r ∈ i.constraints.avoidRegions) ∧
      (∀ t, t ∈ mc.avoidTags ↔ ∃ i ∈ imps, t ∈ i.constraints.avoidTags) ∧
      (mc.maxLoadPercent = none ↔
        ∀ i ∈ imps, i.constraints.maxLoadPercent = none) ∧
      (∀ q, mc.maxLoadPercent = some q →
        (∃ i ∈ imps, i.constraints.maxLoadPercent = some q) ∧
        ∀ i ∈ imps, ∀ p, i.constraints.maxLoadPercent = some p → q ≤ p)) := by
  constructor
  · intro h
    rw [h]
    rfl
  · intro hne
    have hemp : imps.isEmpty = false := by
      cases imps with
      | nil => exact absurd rfl hne
      | cons i is => rfl
    have hmc : mergeConstraints imps = some
        { avoidRegions :=
            jsSetDedup ((imps.map (·.constraints)).flatMap (·.avoidRegions))
          avoidTags :=
            jsSetDedup ((imps.map (·.constraints)).flatMap (·.avoidTags))
          allowHighImpact := (imps.map (·.constraints)).all (·.allowHighImpact)
          allowOverhead := (imps.map (·.constraints)).all (·.allowOverhead)
          allowInversion := (imps.map (·.constraints)).all (·.allowInversion)
          allowProne := (imps.map (·.constraints)).all (·.allowProne)
          allowKipping := (imps.map (·.constraints)).all (·.allowKipping)
          allowHeavyAxialLoad :=
            (imps.map (·.constraints)).all (·.allowHeavyAxialLoad)
          maxLoadPercent := getMinLoadPercent (imps.map (·.constraints))
          notes := none } := by
      rw [mergeConstraints]
      simp only [hemp, Bool.false_eq_true, if_false]
    refine ⟨_, hmc, ?_, ?_, ?_, ?_, ?_, ?_, ?_, ?_, ?_, ?_⟩
    · simp only [all_map_eq]
    · simp only [all_map_eq]
    · simp only [all_map_eq]
    · simp only [all_map_eq]
    · simp only [all_map_eq]
    · simp only [all_map_eq]
    · intro r
      show r ∈ jsSetDedup _ ↔ _
      simp only [jsSetDedup_mem, List.mem_flatMap, List.mem_map]
      constructor
      · rintro ⟨cs, ⟨i, hi, rfl⟩, hr⟩
        exact ⟨i, hi, hr⟩
      · rintro ⟨i, hi, hr⟩
        exact ⟨i.constraints, ⟨i, hi, rfl⟩, hr⟩
    · intro t
      show t ∈ jsSetDedup _ ↔ _
      simp only [jsSetDedup_mem, List.mem_flatMap, List.mem_map]
      constructor
      · rintro ⟨cs, ⟨i, hi, rfl⟩, ht⟩
        exact ⟨i, hi, ht⟩
      · rintro ⟨i, hi, ht⟩
        exact ⟨i.constraints, ⟨i, hi, rfl⟩, ht⟩
    · show getMinLoadPercent (imps.map (·.constraints)) = none ↔ _
      constructor
      · intro h i hi
        rw [getMinLoadPercent] at h
        cases hcaps : (imps.map (·.constraints)).filterMap (·.maxLoadPercent) with
        | nil =>
          exact List.filterMap_eq_nil_iff.mp hcaps i.constraints
            (List.mem_map.mpr ⟨i, hi, rfl⟩)
        | cons cap rest =>
          rw [hcaps] at h
          exact absurd h (by simp)
      · intro h
        have hcaps :
            (imps.map (·.constraints)).filterMap (·.maxLoadPercent) = [] :=
          List.filterMap_eq_nil_iff.mpr (by
            rintro cs hcs
            obtain ⟨i, hi, rfl⟩ := List.mem_map.mp hcs
            exact h i hi)
        rw [getMinLoadPercent, hcaps]
    · intro q hq
      replace hq : getMinLoadPercent (imps.map (·.constraints)) = some q := hq
      rw [getMinLoadPercent] at hq
      cases hcaps : (imps.map (·.constraints)).filterMap (·.maxLoadPercent) with
      | nil =>
        rw [hcaps] at hq
        exact absurd hq (by simp)
      | cons cap rest =>
        rw [hcaps] at hq
        obtain hq' : rest.foldl min cap = q := Option.some.inj hq
        obtain ⟨hmm, hle, hall⟩ := foldl_min_spec rest cap
        rw [hq'] at hmm hle hall
        constructor
        · have hqin : q ∈ (imps.map (·.constraints)).filterMap
              (·.maxLoadPercent) := by
            rw [hcaps]
            rcases hmm with h | h
            · rw [h]
              exact List.mem_cons_self _ _
            · exact List.mem_cons_of_mem _ h
          obtain ⟨cs, hcs, hcsq⟩ := List.mem_filterMap.mp hqin
          obtain ⟨i, hi, rfl⟩ := List.mem_map.mp hcs
          exact ⟨i, hi, hcsq⟩
        · intro i hi p hp
          have hpin : p ∈ (imps.map (·.constraints)).filterMap
              (·.maxLoadPercent) :=
            List.mem_filterMap.mpr
              ⟨i.constraints, List.mem_map.mpr ⟨i, hi, rfl⟩, hp⟩
          rw [hcaps] at hpin
          rcases List.mem_cons.mp hpin with rfl | hpin
          · exact hle
          · exact hall p hpin

/-- C3 witness: merging a cap-70 impediment with a cap-80 shoulder
impediment ANDs the permissions, unions the avoid lists, and keeps the
smaller cap. -/
theorem mergeConstraints_spec_witness :
    ∃ mc, mergeConstraints [cap70Impediment, shoulderImpediment] = some mc ∧
      mc.allowHighImpact = ([cap70Impediment, shoulderImpediment].all
        (fun i => i.constraints.allowHighImpact)) ∧
      mc.allowOverhead = ([cap70Impediment, shoulderImpediment].all
        (fun i => i.constraints.allowOverhead)) ∧
      mc.allowInversion = ([cap70Impediment, shoulderImpediment].all
        (fun i => i.constraints.allowInversion)) ∧
      mc.allowProne = ([cap70Impediment, shoulderImpediment].all
        (fun i => i.constraints.allowProne)) ∧
      mc.allowKipping = ([cap70Impediment, shoulderImpediment].all
        (fun i => i.constraints.allowKipping)) ∧
      mc.allowHeavyAxialLoad = ([cap70Impediment, shoulderImpediment].all
        (fun i => i.constraints.allowHeavyAxialLoad)) ∧
      (∀ r, r ∈ mc.avoidRegions ↔
        ∃ i ∈ [cap70Impediment, shoulderImpediment],
          r ∈ i.constraints.avoidRegions) ∧
      (∀ t, t ∈ mc.avoidTags ↔
        ∃ i ∈ [cap70Impediment, shoulderImpediment],
          t ∈ i.constraints.avoidTags) ∧
      (mc.maxLoadPercent = none ↔
        ∀ i ∈ [cap70Impediment, shoulderImpediment],
          i.constraints.maxLoadPercent = none) ∧
      (∀ q, mc.maxLoadPercent = some q →
        (∃ i ∈ [cap70Impediment, shoulderImpediment],
          i.constraints.maxLoadPercent = some q) ∧
        ∀ i ∈ [cap70Impediment, shoulderImpediment], ∀ p,
          i.constraints.maxLoadPercent = some p → q ≤ p) :=
  (mergeConstraints_spec [cap70Impediment, shoulderImpediment]).2
    (List.cons_ne_nil _ _)

/-- C9 witness: a cap of exactly 0 on a bodyweight movement is carried
through unchanged and produces no load-gate reason or warning. -/
theorem checkMovement_cap_passthrough_witness :
    (checkMovement airSquatEx (some capZeroConstraint) []).maxLoadPercent =
      some 0 ∧
    (airSquatEx.loadType ≠ "weighted" →
      (checkMovement airSquatEx (some capZeroConstraint) []).reasons =
        equipmentReasons airSquatEx [] ++
          (regionGate airSquatEx capZeroConstraint).1 ++
          tagReasons airSquatEx capZeroConstraint ++
          propertyReasons airSquatEx capZeroConstraint ∧
      (checkMovement airSquatEx (some capZeroConstraint) []).warnings =
        (regionGate airSquatEx capZeroConstraint).2) :=
  checkMovement_cap_passthrough airSquatEx capZeroConstraint [] 0 rfl

/-- C1 counterexample: a bodyweight movement allowed under a constraint
whose cap is exactly 0 yields `loadScale = 1`, not
`(maxLoadPercent ?? 100) / 100 = 0`: the source tests JS truthiness of the
cap, and 0 is falsy. -/
theorem findSubstitution_capZero_counterexample :
    (checkMovement airSquatEx (some capZeroConstraint) []).allowed = true ∧
    (checkMovement airSquatEx (some capZeroConstraint) []).maxLoadPercent =
      some 0 ∧
    (findSubstitution [] airSquatEx (some capZeroConstraint) []).replacement =
      some airSquatEx ∧
    (findSubstitution [] airSquatEx (some capZeroConstraint) []).loadScale = 1 ∧
    ¬ ((findSubstitution [] airSquatEx (some capZeroConstraint) []).loadScale =
        0 / 100) := by
  have hc : checkMovement airSquatEx (some capZeroConstraint) [] =
      { allowed := true
        reasons := []
        maxLoadPercent := some 0
        warnings := [] } := by
    rw [checkMovement_some_eq, regionGate_eq]
    norm_num [equipmentReasons, tagReasons, propertyReasons, loadGate,
      airSquatEx, capZeroConstraint, openConstraint]
    rw [if_neg (by decide : ¬ ("bodyweight" = "weighted"))]
    exact ⟨rfl, rfl, rfl⟩
  have hf : findSubstitution [] airSquatEx (some capZeroConstraint) [] =
      { original := airSquatEx
        replacement := some airSquatEx
        originalReasons := []
        replacementWarnings := []
        loadScale := 1 } := by
    rw [findSubstitution]
    simp only [hc, if_true, jsLoadScale]
  refine ⟨by rw [hc], by rw [hc], by rw [hf], by rw [hf], by rw [hf]; norm_num⟩

/-- C1 (amended): if `checkMovement` allows the original movement,
`findSubstitution` returns the movement as its own replacement, with
`loadScale = maxLoadPercent / 100` when the check's cap is defined and
nonzero, and `loadScale = 1` otherwise — including when the cap is
exactly 0 (JS truthiness), where the unamended claim expected 0. -/
theorem findSubstitution_allowed (catalog : List Movement) (m : Movement)
    (c : Option MovementConstraint) (inv : List String)
    (h : (checkMovement m c inv).allowed = true) :
    (findSubstitution catalog m c inv).replacement = some m ∧
    (findSubstitution catalog m c inv).replacement.map Movement.id =
      some m.id ∧
    (findSubstitution catalog m c inv).loadScale =
      (match (checkMovement m c inv).maxLoadPercent with
       | none => 1
       | some p => if p = 0 then 1 else p / 100) := by
  have hred : findSubstitution catalog m c inv =
      { original := m
        replacement := some m
        originalReasons := []
        replacementWarnings := (checkMovement m c inv).warnings
        loadScale := jsLoadScale (checkMovement m c inv).maxLoadPercent } := by
    rw [findSubstitution]
    simp only [h, if_true]
  rw [hred]
  exact ⟨rfl, rfl, by rw [jsLoadScale.eq_def]⟩

/-- C1 witness: an equipment-free movement with no constraint is its own
replacement at `loadScale = 1`. -/
theorem findSubstitution_allowed_witness :
    (findSubstitution [] airSquatEx none []).replacement = some airSquatEx ∧
    (findSubstitution [] airSquatEx none []).replacement.map Movement.id =
      some airSquatEx.id ∧
    (findSubstitution [] airSquatEx none []).loadScale =
      (match (checkMovement airSquatEx none []).maxLoadPercent with
       | none => 1
       | some p => if p = 0 then 1 else p / 100) :=
  findSubstitution_allowed [] airSquatEx none [] (by decide)

/-- C8: when the original is rejected, no resolved chain candidate passes,
and the broad search yields nothing, `findSubstitution` returns — as an
ordinary value of a total function — an absent replacement, `loadScale 0`,
and exactly the original's rejection reasons. -/
theorem findSubstitution_exhausted (catalog : List Movement) (m : Movement)
    (c : Option MovementConstraint) (inv : List String)
    (h1 : (checkMovement m c inv).allowed = false)
    (h2 : ∀ subId ∈ m.substitutions, ∀ cand,
      getMovement catalog subId = some cand →
      (checkMovement cand c inv).allowed = false)
    (h3 : findBroadSubstitution catalog m c inv = none) :
    findSubstitution catalog m c inv =
      { original := m
        replacement := none
        originalReasons := (checkMovement m c inv).reasons
        replacementWarnings := []
        loadScale := 0 } := by
  have hchain := walkChain_eq_none h2
  rw [findSubstitution]
  simp only [h1, Bool.false_eq_true, if_false, hchain, h3]

/-- C8 witness: a barbell movement, an empty catalog and an empty
inventory exhaust every stage. -/
theorem findSubstitution_exhausted_witness :
    findSubstitution [] backSquatEx none [] =
      { original := backSquatEx
        replacement := none
        originalReasons := (checkMovement backSquatEx none []).reasons
        replacementWarnings := []
        loadScale := 0 } :=
  findSubstitution_exhausted [] backSquatEx none [] (by decide)
    (by intro subId hs cand hc; simp [getMovement] at hc) rfl

/-- `broadCandidates` as a filter-then-map over the catalog. -/
lemma broadCandidates_eq (catalog : List Movement) (m : Movement)
    (c : Option MovementConstraint) (inv : List String) :
    broadCandidates catalog m c inv =
      (catalog.filter (fun cand =>
        !((m.id :: m.substitutions).contains cand.id) &&
        !(sharedGroupCount m cand == 0) &&
        (checkMovement cand c inv).allowed)).map
      (fun cand => { movement := cand, score := broadScore m cand }) := rfl

/-- The Boolean eligibility test of `findBroadSubstitution`, as a
proposition. -/
lemma broadEligible_iff (m cand : Movement) (c : Option MovementConstraint)
    (inv : List String) :
    ((!((m.id :: m.substitutions).contains cand.id)) &&
      (!(sharedGroupCount m cand == 0)) &&
      (checkMovement cand c inv).allowed) = true ↔
    (cand.id ∉ m.id :: m.substitutions ∧ sharedGroupCount m cand ≠ 0 ∧
      (checkMovement cand c inv).allowed = true) := by
  rw [Bool.and_eq_true, Bool.and_eq_true, Bool.not_eq_true', Bool.not_eq_true']
  constructor
  · rintro ⟨⟨hid, hsh⟩, hal⟩
    refine ⟨fun hmem => ?_, fun h => ?_, hal⟩
    · have hc2 : (m.id :: m.substitutions).contains cand.id = true :=
        List.elem_iff.mpr hmem
      rw [hc2] at hid
      simp at hid
    · rw [h] at hsh
      simp at hsh
  · rintro ⟨hid, hsh, hal⟩
    refine ⟨⟨?_, ?_⟩, hal⟩
    · cases hcon : (m.id :: m.substitutions).contains cand.id with
      | false => rfl
      | true => exact absurd (List.elem_iff.mp hcon) hid
    · cases hcon : sharedGroupCount m cand == 0 with
      | false => rfl
      | true => exact absurd (beq_iff_eq.mp hcon) hsh

/-- C2: whenever `findSubstitution` reaches the broad catalog search (the
original rejected, no resolved chain candidate passing) and returns a
replacement `r`, then `r` is a catalog movement outside the original and
its chain, shares a muscle group with the original, passes the check,
attains the maximal fallback score
`10·sharedGroups + 5·(tier ≤ original) + 1·(same modality)` over all such
candidates, and is the earliest catalog element among the equally-scored —
a deterministic, pure selection. -/
theorem findSubstitution_broad_spec (catalog : List Movement) (m : Movement)
    (c : Option MovementConstraint) (inv : List String) (r : Movement)
    (h1 : (checkMovement m c inv).allowed = false)
    (h2 : ∀ subId ∈ m.substitutions, ∀ cand,
      getMovement catalog subId = some cand →
      (checkMovement cand c inv).allowed = false)
    (h3 : (findSubstitution catalog m c inv).replacement = some r) :
    r ∈ catalog ∧
    r.id ∉ m.id :: m.substitutions ∧
    sharedGroupCount m r ≠ 0 ∧
    (checkMovement r c inv).allowed = true ∧
    (∀ cand ∈ catalog, cand.id ∉ m.id :: m.substitutions →
      sharedGroupCount m cand ≠ 0 →
      (checkMovement cand c inv).allowed = true →
      broadScore m cand ≤ broadScore m r) ∧
    (∃ pre post, catalog = pre ++ r :: post ∧
      ∀ cand ∈ pre, cand.id ∉ m.id :: m.substitutions →
        sharedGroupCount m cand ≠ 0 →
        (checkMovement cand c inv).allowed = true →
        broadScore m cand < broadScore m r) := by
  have hchain := walkChain_eq_none h2
  have hrepl : findBroadSubstitution catalog m c inv = some r := by
    rw [findSubstitution] at h3
    simp only [h1, Bool.false_eq_true, if_false, hchain] at h3
    cases hb : findBroadSubstitution catalog m c inv with
    | none =>
      rw [hb] at h3
      simp at h3
    | some bm =>
      rw [hb] at h3
      simpa using h3
  rw [findBroadSubstitution, broadCandidates_eq] at hrepl
  obtain ⟨b, hbest, hbm⟩ := Option.map_eq_some'.mp hrepl
  obtain ⟨pre, mm, post, hdec, hPmm, hfmm, hpre⟩ :=
    chooseBest_filter_map_spec hbest
  have hmm_r : mm = r := by rw [← hbm, ← hfmm]
  subst hmm_r
  have hbscore : b.score = broadScore m mm := by rw [← hfmm]
  have helig := (broadEligible_iff m mm c inv).mp hPmm
  refine ⟨?_, helig.1, helig.2.1, helig.2.2, ?_, ?_⟩
  · rw [hdec]
    exact List.mem_append_right _ (List.mem_cons_self _ _)
  · intro cand hcand hnid hsh hal
    have hin : (fun cand => (⟨cand, broadScore m cand⟩ : ScoredCandidate)) cand ∈
        (catalog.filter (fun cand =>
          !((m.id :: m.substitutions).contains cand.id) &&
          !(sharedGroupCount m cand == 0) &&
          (checkMovement cand c inv).allowed)).map
        (fun cand => { movement := cand, score := broadScore m cand }) :=
      List.mem_map.mpr ⟨cand, List.mem_filter.mpr
        ⟨hcand, (broadEligible_iff m cand c inv).mpr ⟨hnid, hsh, hal⟩⟩, rfl⟩
    have := chooseBest_max hbest _ hin
    rw [hbscore] at this
    exact this
  · refine ⟨pre, post, hdec, ?_⟩
    intro cand hc hnid hsh hal
    have := hpre cand hc ((broadEligible_iff m cand c inv).mpr ⟨hnid, hsh, hal⟩)
    rw [hbscore] at this
    exact this

/-- C2 witness: under a dumbbell-only inventory, the rejected back squat
with an unresolvable chain falls back to the dumbbell squat, the unique
(and thus earliest maximal) eligible candidate. -/
theorem findSubstitution_broad_spec_witness :
    dumbbellSquatEx ∈ [backSquatEx, dumbbellSquatEx] ∧
    dumbbellSquatEx.id ∉ backSquatEx.id :: backSquatEx.substitutions ∧
    sharedGroupCount backSquatEx dumbbellSquatEx ≠ 0 ∧
    (checkMovement dumbbellSquatEx none ["dumbbell"]).allowed = true ∧
    (∀ cand ∈ [backSquatEx, dumbbellSquatEx],
      cand.id ∉ backSquatEx.id :: backSquatEx.substitutions →
      sharedGroupCount backSquatEx cand ≠ 0 →
      (checkMovement cand none ["dumbbell"]).allowed = true →
      broadScore backSquatEx cand ≤ broadScore backSquatEx dumbbellSquatEx) ∧
    (∃ pre post,
      [backSquatEx, dumbbellSquatEx] = pre ++ dumbbellSquatEx :: post ∧
      ∀ cand ∈ pre, cand.id ∉ backSquatEx.id :: backSquatEx.substitutions →
        sharedGroupCount backSquatEx cand ≠ 0 →
        (checkMovement cand none ["dumbbell"]).allowed = true →
        broadScore backSquatEx cand < broadScore backSquatEx dumbbellSquatEx) :=
  findSubstitution_broad_spec [backSquatEx, dumbbellSquatEx] backSquatEx none
    ["dumbbell"] dumbbellSquatEx (by decide)
    (by
      intro subId hs cand hc
      simp only [backSquatEx, List.mem_singleton] at hs
      subst hs
      simp [getMovement, backSquatEx, dumbbellSquatEx] at hc)
    (by decide)

/-- When the prescription resolves to a movement, the scaled
prescription's fields, read off `scalePrescription`'s some-branch. -/
lemma scalePrescription_some_fields (catalog : List Movement)
    (p : MovementPrescription) (t : DifficultyTier) (inv : List String)
    (orig : Movement)
    (hres : p.movement.orElse (fun _ => getMovement catalog p.movementId) =
      some orig) :
    (scalePrescription catalog p t inv).1.load =
      p.load.map (fun l => ((jsRound (l * TIER_LOAD_SCALE t) : ℤ) : ℚ)) ∧
    (scalePrescription catalog p t inv).1.reps =
      (match p.reps with
       | none => none
       | some r =>
         if r > 0 then some ((max 1 (jsRound (r * TIER_REP_SCALE t)) : ℤ) : ℚ)
         else some r) ∧
    (scalePrescription catalog p t inv).1.distance = p.distance ∧
    (scalePrescription catalog p t inv).1.duration = p.duration ∧
    (scalePrescription catalog p t inv).1.calories = p.calories ∧
    (scalePrescription catalog p t inv).1.notes = p.notes ∧
    (scalePrescription catalog p t inv).1.movementId =
      (findTieredMovement catalog orig t inv).id ∧
    (scalePrescription catalog p t inv).1.movement =
      some (findTieredMovement catalog orig t inv) := by
  rw [scalePrescription.eq_def, hres]
  exact ⟨rfl, rfl, rfl, rfl, rfl, rfl, rfl, rfl⟩

/-- When the prescription does not resolve, `scalePrescription` passes it
through unchanged. -/
lemma scalePrescription_none_eq (catalog : List Movement)
    (p : MovementPrescription) (t : DifficultyTier) (inv : List String)
    (hres : p.movement.orElse (fun _ => getMovement catalog p.movementId) =
      none) :
    (scalePrescription catalog p t inv).1 = p := by
  rw [scalePrescription.eq_def, hres]

/-- C6: for a prescription whose movement id resolves in the catalog,
scaling multiplies a defined load by the tier load factor and rounds,
multiplies defined positive reps by the tier rep factor, rounds and clamps
to at least 1 (non-positive reps pass through), and passes distance,
duration, calories and notes through verbatim; the factor tables are the
fixed ones, giving load 101 and 6 reps for 225 lb × 10 at Beginner. -/
theorem scalePrescription_spec (catalog : List Movement)
    (p : MovementPrescription) (t : DifficultyTier) (inv : List String)
    (h : (getMovement catalog p.movementId).isSome = true) :
    (scalePrescription catalog p t inv).1.load =
      p.load.map (fun l => ((jsRound (l * TIER_LOAD_SCALE t) : ℤ) : ℚ)) ∧
    (∀ r, p.reps = some r → 0 < r →
      (scalePrescription catalog p t inv).1.reps =
        some ((max 1 (jsRound (r * TIER_REP_SCALE t)) : ℤ) : ℚ)) ∧
    (∀ r, p.reps = some r → ¬ (0 < r) →
      (scalePrescription catalog p t inv).1.reps = some r) ∧
    (scalePrescription catalog p t inv).1.distance = p.distance ∧
    (scalePrescription catalog p t inv).1.duration = p.duration ∧
    (scalePrescription catalog p t inv).1.calories = p.calories ∧
    (scalePrescription catalog p t inv).1.notes = p.notes ∧
    TIER_LOAD_SCALE .beginner = 45 / 100 ∧
    TIER_REP_SCALE .beginner = 60 / 100 ∧
    TIER_LOAD_SCALE .intermediate = 65 / 100 ∧
    TIER_REP_SCALE .intermediate = 80 / 100 ∧
    TIER_LOAD_SCALE .advanced = 85 / 100 ∧
    TIER_REP_SCALE .advanced = 1 ∧
    TIER_LOAD_SCALE .rx = 1 ∧
    TIER_REP_SCALE .rx = 1 ∧
    TIER_LOAD_SCALE .rxPlus = 110 / 100 ∧
    TIER_REP_SCALE .rxPlus = 120 / 100 ∧
    jsRound ((225 : ℚ) * TIER_LOAD_SCALE .beginner) = 101 ∧
    max 1 (jsRound ((10 : ℚ) * TIER_REP_SCALE .beginner)) = 6 := by
  have hres : ∃ orig,
      p.movement.orElse (fun _ => getMovement catalog p.movementId) =
        some orig := by
    cases hm : p.movement with
    | some mv => exact ⟨mv, rfl⟩
    | none =>
      obtain ⟨orig0, horig0⟩ := Option.isSome_iff_exists.mp h
      exact ⟨orig0, horig0⟩
  obtain ⟨orig, hres⟩ := hres
  obtain ⟨hload, hreps, hdist, hdur, hcal, hnotes, -, -⟩ :=
    scalePrescription_some_fields catalog p t inv orig hres
  refine ⟨hload, ?_, ?_, hdist, hdur, hcal, hnotes, rfl, rfl, rfl, rfl, rfl,
    rfl, rfl, rfl, rfl, rfl, by norm_num [jsRound, TIER_LOAD_SCALE],
    by norm_num [jsRound, TIER_REP_SCALE]⟩
  · intro r hr hrpos
    rw [hreps, hr]
    simp only [hrpos, if_true]
  · intro r hr hrpos
    rw [hreps, hr]
    simp only [hrpos, if_false]

/-- C6 witness: a catalog back squat at 225 lb × 10 scaled to Beginner
rounds to 101 lb and 6 reps, with distance, duration, calories and notes
untouched. -/
theorem scalePrescription_spec_witness :
    (scalePrescription [backSquatEx] squatPrescription .beginner []).1.load =
      some ((jsRound ((225 : ℚ) * TIER_LOAD_SCALE .beginner) : ℤ) : ℚ) ∧
    (scalePrescription [backSquatEx] squatPrescription .beginner []).1.reps =
      some ((max 1 (jsRound ((10 : ℚ) * TIER_REP_SCALE .beginner)) : ℤ) : ℚ) ∧
    jsRound ((225 : ℚ) * TIER_LOAD_SCALE .beginner) = 101 ∧
    max 1 (jsRound ((10 : ℚ) * TIER_REP_SCALE .beginner)) = 6 ∧
    (scalePrescription [backSquatEx] squatPrescription .beginner []).1.distance =
      none ∧
    (scalePrescription [backSquatEx] squatPrescription .beginner []).1.notes =
      none := by
  obtain ⟨hload, hreps, hrepsneg, hdist, hdur, hcal, hnotes, hrest⟩ :=
    scalePrescription_spec [backSquatEx] squatPrescription .beginner []
      (by decide)
  refine ⟨?_, hreps 10 rfl (by norm_num), ?_, ?_, hdist, hnotes⟩
  · rw [hload]
    rfl
  · norm_num [jsRound, TIER_LOAD_SCALE]
  · norm_num [jsRound, TIER_REP_SCALE]

/-- JS `Math.round` is monotone. -/
lemma jsRound_mono {a b : ℚ} (h : a ≤ b) : jsRound a ≤ jsRound b :=
  Int.floor_mono (add_le_add_right h _)

/-- The movements of a tier-scaled workout, prescription by
prescription. -/
lemma scaleWorkoutToTier_movements (catalog : List Movement) (w : Workout)
    (t : DifficultyTier) (inv : List String) :
    (scaleWorkoutToTier catalog w t inv).workout.movements =
      w.movements.map (fun q => (scalePrescription catalog q t inv).1) := by
  show (w.movements.map
      (fun q => scalePrescription catalog q t inv)).map Prod.fst = _
  rw [List.map_map]
  rfl

/-- The `i`-th scaled prescription of a tier-scaled workout. -/
lemma scaleWorkoutToTier_getElem (catalog : List Movement) (w : Workout)
    (t : DifficultyTier) (inv : List String) (i : Nat)
    {p : MovementPrescription} (hp : w.movements[i]? = some p) :
    (scaleWorkoutToTier catalog w t inv).workout.movements[i]? =
      some ((scalePrescription catalog p t inv).1) := by
  rw [scaleWorkoutToTier_movements, List.getElem?_map, hp]
  rfl

/-- C7 counterexample: with a weighted beginner-tier movement kept at all
five tiers but prescribed a negative load (-10), the Beginner output's
load (-4) exceeds the Intermediate output's load (-6), so the loads are
not monotonically non-decreasing as the claim states for every defined
load. -/
theorem generateAllScalingTiers_negLoad_counterexample :
    (squatWorkout (-10)).movements[0]? = some (dumbbellPrescription (-10)) ∧
    (dumbbellPrescription (-10)).load = some (-10) ∧
    dumbbellSquatEx.loadType = "weighted" ∧
    (∀ s ∈ generateAllScalingTiers [] (squatWorkout (-10)) [],
      (s.workout.movements[0]?).map (·.movementId) = some "dumbbell_squat") ∧
    (((scaleWorkoutToTier [] (squatWorkout (-10)) .beginner
        []).workout.movements[0]?).bind (·.load) = some ((-4 : ℚ))) ∧
    (((scaleWorkoutToTier [] (squatWorkout (-10)) .intermediate
        []).workout.movements[0]?).bind (·.load) = some ((-6 : ℚ))) ∧
    ¬ ((-4 : ℚ) ≤ (-6 : ℚ)) := by
  have hp : (squatWorkout (-10)).movements[0]? =
      some (dumbbellPrescription (-10)) := rfl
  have hres : ∀ t, (scaleWorkoutToTier [] (squatWorkout (-10)) t
      []).workout.movements[0]? =
        some ((scalePrescription [] (dumbbellPrescription (-10)) t []).1) :=
    fun t => scaleWorkoutToTier_getElem [] (squatWorkout (-10)) t [] 0 hp
  have horelse : ((dumbbellPrescription (-10)).movement.orElse
      (fun _ => getMovement [] (dumbbellPrescription (-10)).movementId)) =
        some dumbbellSquatEx := rfl
  have hload : ∀ t,
      ((scalePrescription [] (dumbbellPrescription (-10)) t []).1).load =
        some ((jsRound ((-10) * TIER_LOAD_SCALE t) : ℤ) : ℚ) := by
    intro t
    rw [(scalePrescription_some_fields [] (dumbbellPrescription (-10)) t []
      dumbbellSquatEx horelse).1]
    rfl
  have hmid : ∀ t,
      ((scalePrescription [] (dumbbellPrescription (-10)) t []).1).movementId =
        (findTieredMovement [] dumbbellSquatEx t []).id :=
    fun t => (scalePrescription_some_fields [] (dumbbellPrescription (-10)) t []
      dumbbellSquatEx horelse).2.2.2.2.2.2.1
  refine ⟨rfl, rfl, rfl, ?_, ?_, ?_, by norm_num⟩
  · intro s hs
    simp only [generateAllScalingTiers, TIER_ORDER, List.map_cons,
      List.map_nil, List.mem_cons, List.not_mem_nil, or_false] at hs
    rcases hs with rfl | rfl | rfl | rfl | rfl <;>
      rw [hres, Option.map_some', hmid] <;> rfl
  · rw [hres, Option.some_bind, hload]
    norm_num [jsRound, TIER_LOAD_SCALE]
  · rw [hres, Option.some_bind, hload]
    norm_num [jsRound, TIER_LOAD_SCALE]

/-- C7 (amended): `generateAllScalingTiers` returns exactly the five
scaled workouts in ascending tier order Beginner, Intermediate, Advanced,
Rx, Rx⁺; and for any weighted movement prescription with a defined
non-negative load that is present (same movement) in all five outputs,
the scaled loads are monotonically non-decreasing from the Beginner
output to the Rx⁺ output.  (The unamended claim fails for negative
loads, where rounding of a scaled-down magnitude increases the value.) -/
theorem generateAllScalingTiers_spec (catalog : List Movement) (w : Workout)
    (inv : List String) :
    generateAllScalingTiers catalog w inv =
      [scaleWorkoutToTier catalog w .beginner inv,
       scaleWorkoutToTier catalog w .intermediate inv,
       scaleWorkoutToTier catalog w .advanced inv,
       scaleWorkoutToTier catalog w .rx inv,
       scaleWorkoutToTier catalog w .rxPlus inv] ∧
    (generateAllScalingTiers catalog w inv).map (·.tier) = TIER_ORDER ∧
    (∀ (i : Nat) (p : MovementPrescription) (L : ℚ),
      w.movements[i]? = some p → p.load = some L → 0 ≤ L →
      (∀ mov, p.movement.orElse (fun _ => getMovement catalog p.movementId) =
        some mov → mov.loadType = "weighted") →
      (∀ s ∈ generateAllScalingTiers catalog w inv,
        (s.workout.movements[i]?).map (·.movementId) =
          (((scaleWorkoutToTier catalog w .beginner
            inv).workout.movements[i]?).map (·.movementId))) →
      ∃ L0 L1 L2 L3 L4,
        ((scaleWorkoutToTier catalog w .beginner
          inv).workout.movements[i]?).bind (·.load) = some L0 ∧
        ((scaleWorkoutToTier catalog w .intermediate
          inv).workout.movements[i]?).bind (·.load) = some L1 ∧
        ((scaleWorkoutToTier catalog w .advanced
          inv).workout.movements[i]?).bind (·.load) = some L2 ∧
        ((scaleWorkoutToTier catalog w .rx
          inv).workout.movements[i]?).bind (·.load) = some L3 ∧
        ((scaleWorkoutToTier catalog w .rxPlus
          inv).workout.movements[i]?).bind (·.load) = some L4 ∧
        L0 ≤ L1 ∧ L1 ≤ L2 ∧ L2 ≤ L3 ∧ L3 ≤ L4) := by
  refine ⟨rfl, rfl, ?_⟩
  intro i p L hp hL hpos hweighted hsame
  have hres : ∀ t, (scaleWorkoutToTier catalog w t
      inv).workout.movements[i]? =
        some ((scalePrescription catalog p t inv).1) :=
    fun t => scaleWorkoutToTier_getElem catalog w t inv i hp
  cases horelse : p.movement.orElse
      (fun _ => getMovement catalog p.movementId) with
  | none =>
    have hkeep : ∀ t,
        ((scaleWorkoutToTier catalog w t inv).workout.movements[i]?).bind
          (·.load) = some L := by
      intro t
      rw [hres, Option.some_bind,
        scalePrescription_none_eq catalog p t inv horelse, hL]
    exact ⟨L, L, L, L, L, hkeep _, hkeep _, hkeep _, hkeep _, hkeep _,
      le_refl L, le_refl L, le_refl L, le_refl L⟩
  | some orig =>
    have hload : ∀ t,
        ((scaleWorkoutToTier catalog w t inv).workout.movements[i]?).bind
          (·.load) = some ((jsRound (L * TIER_LOAD_SCALE t) : ℤ) : ℚ) := by
      intro t
      rw [hres, Option.some_bind,
        (scalePrescription_some_fields catalog p t inv orig horelse).1, hL]
      rfl
    have hstep : ∀ t1 t2 : DifficultyTier,
        TIER_LOAD_SCALE t1 ≤ TIER_LOAD_SCALE t2 →
        ((jsRound (L * TIER_LOAD_SCALE t1) : ℤ) : ℚ) ≤
          ((jsRound (L * TIER_LOAD_SCALE t2) : ℤ) : ℚ) := by
      intro t1 t2 hf
      exact_mod_cast jsRound_mono (mul_le_mul_of_nonneg_left hf hpos)
    exact ⟨_, _, _, _, _, hload _, hload _, hload _, hload _, hload _,
      hstep _ _ (by norm_num [TIER_LOAD_SCALE]),
      hstep _ _ (by norm_num [TIER_LOAD_SCALE]),
      hstep _ _ (by norm_num [TIER_LOAD_SCALE]),
      hstep _ _ (by norm_num [TIER_LOAD_SCALE])⟩

/-- C7 witness: a one-movement workout at load 50 produces the five tiers
in order with non-decreasing loads. -/
theorem generateAllScalingTiers_spec_witness :
    generateAllScalingTiers [] (squatWorkout 50) [] =
      [scaleWorkoutToTier [] (squatWorkout 50) .beginner [],
       scaleWorkoutToTier [] (squatWorkout 50) .intermediate [],
       scaleWorkoutToTier [] (squatWorkout 50) .advanced [],
       scaleWorkoutToTier [] (squatWorkout 50) .rx [],
       scaleWorkoutToTier [] (squatWorkout 50) .rxPlus []] ∧
    (generateAllScalingTiers [] (squatWorkout 50) []).map (·.tier) =
      TIER_ORDER ∧
    ∃ L0 L1 L2 L3 L4,
      ((scaleWorkoutToTier [] (squatWorkout 50) .beginner
        []).workout.movements[0]?).bind (·.load) = some L0 ∧
      ((scaleWorkoutToTier [] (squatWorkout 50) .intermediate
        []).workout.movements[0]?).bind (·.load) = some L1 ∧
      ((scaleWorkoutToTier [] (squatWorkout 50) .advanced
        []).workout.movements[0]?).bind (·.load) = some L2 ∧
      ((scaleWorkoutToTier [] (squatWorkout 50) .rx
        []).workout.movements[0]?).bind (·.load) = some L3 ∧
      ((scaleWorkoutToTier [] (squatWorkout 50) .rxPlus
        []).workout.movements[0]?).bind (·.load) = some L4 ∧
      L0 ≤ L1 ∧ L1 ≤ L2 ∧ L2 ≤ L3 ∧ L3 ≤ L4 := by
  obtain ⟨h1, h2, h3⟩ := generateAllScalingTiers_spec [] (squatWorkout 50) []
  refine ⟨h1, h2, ?_⟩
  refine h3 0 (dumbbellPrescription 50) 50 rfl rfl (by norm_num) ?_ ?_
  · intro mov hm
    have hm' : some dumbbellSquatEx = some mov := hm
    cases Option.some.inj hm'
    rfl
  · intro s hs
    have hp : (squatWorkout 50).movements[0]? =
        some (dumbbellPrescription 50) := rfl
    have hres : ∀ t, (scaleWorkoutToTier [] (squatWorkout 50) t
        []).workout.movements[0]? =
          some ((scalePrescription [] (dumbbellPrescription 50) t []).1) :=
      fun t => scaleWorkoutToTier_getElem [] (squatWorkout 50) t [] 0 hp
    have horelse : ((dumbbellPrescription 50).movement.orElse
        (fun _ => getMovement [] (dumbbellPrescription 50).movementId)) =
          some dumbbellSquatEx := rfl
    have hmid : ∀ t,
        ((scalePrescription [] (dumbbellPrescription 50) t []).1).movementId =
          (findTieredMovement [] dumbbellSquatEx t []).id :=
      fun t => (scalePrescription_some_fields [] (dumbbellPrescription 50) t []
        dumbbellSquatEx horelse).2.2.2.2.2.2.1
    simp only [generateAllScalingTiers, TIER_ORDER, List.map_cons,
      List.map_nil, List.mem_cons, List.not_mem_nil, or_false] at hs
    rcases hs with rfl | rfl | rfl | rfl | rfl <;>
      simp only [hres, Option.map_some', hmid] <;> rfl

end Wod
